import Mathlib

/-!
Shallow embedding of `schelling.py`, a 2-agent Schelling segregation model.

Cell values follow the source: `-1` and `1` are the two occupant groups
(TypeA and TypeB), `0` is the empty cell.  A grid is its flat row-major
cell list together with its shape.  Machine floats of the source are
modelled as rationals; the two hidden pseudo-random generators of the
source (numpy for initialization, the stdlib one for destination choice)
are modelled as explicit streams: `u : ℕ → ℚ` for the uniform draws of
`np.random.choice` and `rho : ℕ → ℕ` for the draws of `random.choice`.
Failures of the source (raised exceptions) are modelled with `Except`.
-/

deriving instance DecidableEq for Except

set_option allowUnsafeReducibility true

attribute [local semireducible] Rat.add Rat.mul Rat.inv Rat.sub

namespace Schelling

/-- The list of integers `lo, lo+1, ..., hi-1`, the model of the Python
`range(lo, hi)` over `ℤ`. -/
def rangeZ (lo hi : ℤ) : List ℤ :=
  (List.range (hi - lo).toNat).map (fun (i : ℕ) => lo + (i : ℤ))

/-- The square of side `2*r+1` of candidate coordinates around `xy`, in the
order produced by `itertools.product` in the source: first coordinate
outermost, both ascending. -/
def neighborSquare (xy : ℤ × ℤ) (neighbor_size : ℕ) : List (ℤ × ℤ) :=
  rangeZ (xy.1 - neighbor_size) (xy.1 + neighbor_size + 1) ×ˢ
    rangeZ (xy.2 - neighbor_size) (xy.2 + neighbor_size + 1)

/-- Model of `find_neighbors(xy, n_rows, n_cols, neighbor_size)`: every
coordinate of the square around `xy` that is not `xy` itself and whose two
components lie in `range(n_rows)` and `range(n_cols)` respectively, in
generation order. -/
def find_neighbors (xy : ℤ × ℤ) (n_rows n_cols : ℕ) (neighbor_size : ℕ) :
    List (ℤ × ℤ) :=
  (neighborSquare xy neighbor_size).filter
    (fun c => decide (c ≠ xy ∧ 0 ≤ c.1 ∧ c.1 < (n_rows : ℤ) ∧
      0 ≤ c.2 ∧ c.2 < (n_cols : ℤ)))

/-- A grid: shape `rows × cols` and the flat row-major list of cell values,
the model of the 2-D numpy integer array of the source. -/
structure PGrid where
  rows : ℕ
  cols : ℕ
  cells : List ℤ
deriving DecidableEq, Repr

/-- Well-formedness: the flat cell list has exactly `rows * cols` entries,
as a numpy array of that shape does. -/
def PGrid.wf (g : PGrid) : Prop := g.cells.length = g.rows * g.cols

instance (g : PGrid) : Decidable g.wf := by unfold PGrid.wf; infer_instance

/-- Model of the 2-D read `grid[(i, j)]` for an in-bounds coordinate:
row-major flat access. -/
def gcell (g : PGrid) (i j : ℤ) : ℤ :=
  g.cells.getD (i * g.cols + j).toNat 0

/-- The exceptions the source can raise, plus the configuration-error
signal that the specification asks for (the source itself never raises
it). `zeroDivisionError` models the Python ZeroDivisionError,
`indexError` the IndexError raised by `random.choice` on an empty
sequence, `valueError` the ValueError raised by `np.random.choice` when
the probabilities do not sum to 1. -/
inductive SimErr
  | zeroDivisionError
  | indexError
  | valueError
  | configurationError
deriving DecidableEq, Repr

/-- The neighborhood value list built inside `similarity`: the cell values
at all coordinates returned by `find_neighbors`, empty cells included. -/
def neighborhoodOf (g : PGrid) (xy : ℤ × ℤ) (neighbor_size : ℕ) : List ℤ :=
  (find_neighbors xy g.rows g.cols neighbor_size).map (fun c => gcell g c.1 c.2)

/-- Model of `similarity(grid, xy, neighbor_size, tolerance)`.  The source
computes `neighborhood.count(grid[xy]) / len(neighborhood)` and returns
`True` iff that fraction is strictly below `tolerance`; when the
neighborhood is empty the division raises ZeroDivisionError. -/
def similarity (g : PGrid) (xy : ℤ × ℤ) (neighbor_size : ℕ) (tolerance : ℚ) :
    Except SimErr Bool :=
  let neighborhood := neighborhoodOf g xy neighbor_size
  if neighborhood.length = 0 then
    .error .zeroDivisionError
  else
    let cnt : ℚ := (neighborhood.count (gcell g xy.1 xy.2) : ℚ) /
      (neighborhood.length : ℚ)
    if cnt < tolerance then .ok true else .ok false

/-- Model of `np.argwhere(grid == 0)`: the flat row-major indices of the
empty cells, in ascending (row-major) order. -/
def argwhereEmpty (g : PGrid) : List ℕ :=
  (List.range (g.rows * g.cols)).filter (fun idx => decide (g.cells.getD idx 0 = 0))

/-- The two-assignment relocation of the source: write the resident of
`(i, j)` into the flat cell `dest`, then write `0` into `(i, j)`. -/
def moveResident (g : PGrid) (i j dest : ℕ) : PGrid :=
  { g with cells := (g.cells.set dest (gcell g i j)).set (i * g.cols + j) 0 }

/-- The loop body of `SchellingModel.run` for one cell `(i, j)`: skip the
cell when it is empty, otherwise consult `similarity`; on `True`, pick an
empty destination with `random.choice` (one draw of the stream `rho`,
reduced modulo the number of empty cells), write the resident there and
empty the origin.  `random.choice` on an empty sequence raises IndexError. -/
def relocateCell (neighbor_size : ℕ) (neighbor_tol : ℚ) (rho : ℕ → ℕ)
    (g : PGrid) (k : ℕ) (i j : ℕ) : Except SimErr (PGrid × ℕ) :=
  if gcell g i j = 0 then
    .ok (g, k)
  else
    match similarity g (i, j) neighbor_size neighbor_tol with
    | .error e => .error e
    | .ok false => .ok (g, k)
    | .ok true =>
      let es := argwhereEmpty g
      if es.length = 0 then
        .error .indexError
      else
        .ok (moveResident g i j (es.getD (rho k % es.length) 0), k + 1)

/-- The inner `for j in range(w)` loop of one frame, at row `i`. -/
def sweepRow (neighbor_size : ℕ) (neighbor_tol : ℚ) (rho : ℕ → ℕ) (i : ℕ) :
    List ℕ → PGrid → ℕ → Except SimErr (PGrid × ℕ)
  | [], g, k => .ok (g, k)
  | j :: js, g, k =>
    match relocateCell neighbor_size neighbor_tol rho g k i j with
    | .error e => .error e
    | .ok (g', k') => sweepRow neighbor_size neighbor_tol rho i js g' k'

/-- The outer `for i in range(h)` loop of one frame. -/
def sweepGrid (neighbor_size : ℕ) (neighbor_tol : ℚ) (rho : ℕ → ℕ) (w : ℕ) :
    List ℕ → PGrid → ℕ → Except SimErr (PGrid × ℕ)
  | [], g, k => .ok (g, k)
  | i :: is, g, k =>
    match sweepRow neighbor_size neighbor_tol rho i (List.range w) g k with
    | .error e => .error e
    | .ok (g', k') => sweepGrid neighbor_size neighbor_tol rho w is g' k'

/-- One frame of `SchellingModel.run`: the two nested loops over
`range(h)` and `range(w)`, mutating the grid in place as they go. -/
def stepFrame (neighbor_size : ℕ) (neighbor_tol : ℚ) (rho : ℕ → ℕ)
    (h w : ℕ) (g : PGrid) (k : ℕ) : Except SimErr (PGrid × ℕ) :=
  sweepGrid neighbor_size neighbor_tol rho w (List.range h) g k

/-- The flat row-major coordinate list `(0,0), (0,1), ..., (h-1,w-1)`. -/
def rowMajorCoords (h w : ℕ) : List (ℕ × ℕ) :=
  (List.range h).flatMap (fun i => (List.range w).map (fun j => (i, j)))

/-- A sweep over an explicit coordinate list, threading the current grid
through every cell decision. -/
def sweepCells (neighbor_size : ℕ) (neighbor_tol : ℚ) (rho : ℕ → ℕ) :
    List (ℕ × ℕ) → PGrid → ℕ → Except SimErr (PGrid × ℕ)
  | [], g, k => .ok (g, k)
  | c :: cs, g, k =>
    match relocateCell neighbor_size neighbor_tol rho g k c.1 c.2 with
    | .error e => .error e
    | .ok (g', k') => sweepCells neighbor_size neighbor_tol rho cs g' k'

/-- The contrasting snapshot semantics that the specification explicitly
rules out: every cell decision and the empty-cell pool are evaluated
against the pre-sweep grid `g0`, while writes accumulate in `g`.  Used
only to show that the source does not behave this way. -/
def sweepCellsSnapshot (neighbor_size : ℕ) (neighbor_tol : ℚ) (rho : ℕ → ℕ)
    (g0 : PGrid) : List (ℕ × ℕ) → PGrid → ℕ → Except SimErr (PGrid × ℕ)
  | [], g, k => .ok (g, k)
  | c :: cs, g, k =>
    if gcell g0 c.1 c.2 = 0 then
      sweepCellsSnapshot neighbor_size neighbor_tol rho g0 cs g k
    else
      match similarity g0 (c.1, c.2) neighbor_size neighbor_tol with
      | .error e => .error e
      | .ok false => sweepCellsSnapshot neighbor_size neighbor_tol rho g0 cs g k
      | .ok true =>
        let es := argwhereEmpty g0
        if es.length = 0 then
          .error .indexError
        else
          let dest := es.getD (rho k % es.length) 0
          let g1 : PGrid := { g with cells := g.cells.set dest (gcell g0 c.1 c.2) }
          let g2 : PGrid :=
            { g1 with cells := g1.cells.set (c.1 * g.cols + c.2) 0 }
          sweepCellsSnapshot neighbor_size neighbor_tol rho g0 cs g2 (k + 1)

/-- The configuration record handed to `SchellingModel`. -/
structure Config where
  height : ℕ
  width : ℕ
  neighbor_size : ℕ
  neighbor_tol : ℚ
  prior_dist : List ℚ
  max_frame : ℕ
  show_every : ℕ
deriving DecidableEq, Repr

/-- Inverse-CDF form of one categorical draw of
`np.random.choice(3, p=prior_dist)` from a uniform value `u` in `[0,1)`:
the first index whose cumulative probability exceeds `u`. -/
def choiceIdx (p : List ℚ) (u : ℚ) : ℤ :=
  if u < p.getD 0 0 then 0
  else if u < p.getD 0 0 + p.getD 1 0 then 1
  else 2

/-- Model of `np.random.choice(3, size=self.size, p=self.prior_dist) - 1`:
cell `(i, j)` takes the draw number `i*width + j` (numpy fills in row-major
order) minus one, so the three values are `-1`, `0`, `1`. -/
def initGrid (cfg : Config) (u : ℕ → ℚ) : PGrid :=
  ⟨cfg.height, cfg.width,
    (List.range (cfg.height * cfg.width)).map
      (fun idx => choiceIdx cfg.prior_dist (u idx) - 1)⟩

/-- The `while frame < max_frame` loop, returning the final grid and the
final value of the frame counter.  `frame % show_every` is evaluated every
iteration and raises ZeroDivisionError when `show_every = 0`; the render
call itself does not touch engine state and is elided. -/
def runLoop (neighbor_size : ℕ) (neighbor_tol : ℚ) (show_every : ℕ)
    (rho : ℕ → ℕ) (h w : ℕ) :
    ℕ → ℕ → PGrid → ℕ → Except SimErr (PGrid × ℕ)
  | 0, frame, g, _ => .ok (g, frame)
  | fuel + 1, frame, g, k =>
    if show_every = 0 then .error .zeroDivisionError
    else
      match stepFrame neighbor_size neighbor_tol rho h w g k with
      | .error e => .error e
      | .ok (g', k') =>
        runLoop neighbor_size neighbor_tol show_every rho h w fuel (frame + 1) g' k'

/-- Model of `SchellingModel.run`: check that the prior sums to 1 (as
`np.random.choice` does, up to the float tolerance that exact rationals do
not need), initialize the grid from the stream `u`, then run the frame
loop with destination draws from `rho`. -/
def run (cfg : Config) (u : ℕ → ℚ) (rho : ℕ → ℕ) : Except SimErr (PGrid × ℕ) :=
  if cfg.prior_dist.sum ≠ 1 then .error .valueError
  else
    runLoop cfg.neighbor_size cfg.neighbor_tol cfg.show_every rho
      cfg.height cfg.width cfg.max_frame 0 (initGrid cfg u) 0

/-- Same loop as `runLoop` but collecting the grid after every completed
frame, for the frame-by-frame properties. -/
def runLoopTrace (neighbor_size : ℕ) (neighbor_tol : ℚ) (show_every : ℕ)
    (rho : ℕ → ℕ) (h w : ℕ) :
    ℕ → PGrid → ℕ → Except SimErr (List PGrid)
  | 0, _, _ => .ok []
  | fuel + 1, g, k =>
    if show_every = 0 then .error .zeroDivisionError
    else
      match stepFrame neighbor_size neighbor_tol rho h w g k with
      | .error e => .error e
      | .ok (g', k') =>
        match runLoopTrace neighbor_size neighbor_tol show_every rho h w fuel g' k' with
        | .error e => .error e
        | .ok gs => .ok (g' :: gs)

/-- The list of grid states after each frame of a run. -/
def runTrace (cfg : Config) (u : ℕ → ℚ) (rho : ℕ → ℕ) :
    Except SimErr (List PGrid) :=
  if cfg.prior_dist.sum ≠ 1 then .error .valueError
  else
    runLoopTrace cfg.neighbor_size cfg.neighbor_tol cfg.show_every rho
      cfg.height cfg.width cfg.max_frame (initGrid cfg u) 0

/-- Number of cells of a grid holding value `v`. -/
def countVal (v : ℤ) (g : PGrid) : ℕ := g.cells.count v

/-- Number of occupied cells (both groups together). -/
def occupants (g : PGrid) : ℕ := countVal (-1) g + countVal 1 g

/-- Strict lexicographic (row-major) order on coordinates. -/
def coordLt (a b : ℤ × ℤ) : Prop := a.1 < b.1 ∨ (a.1 = b.1 ∧ a.2 < b.2)

/-- Number of positions of the candidate square around `xy` that fall
outside the `n_rows × n_cols` bounds. -/
def clippedCount (xy : ℤ × ℤ) (n_rows n_cols : ℕ) (r : ℕ) : ℕ :=
  (neighborSquare xy r).countP
    (fun c => decide ¬(0 ≤ c.1 ∧ c.1 < (n_rows : ℤ) ∧ 0 ≤ c.2 ∧ c.2 < (n_cols : ℤ)))

/-! ## General lemmas about the embedding -/

theorem mem_rangeZ {lo hi x : ℤ} : x ∈ rangeZ lo hi ↔ lo ≤ x ∧ x < hi := by
  simp only [rangeZ, List.mem_map, List.mem_range]
  constructor
  · rintro ⟨i, hi1, rfl⟩; omega
  · rintro ⟨h1, h2⟩; exact ⟨(x - lo).toNat, by omega, by omega⟩

theorem length_rangeZ (lo hi : ℤ) : (rangeZ lo hi).length = (hi - lo).toNat := by
  rw [rangeZ, List.length_map, List.length_range]

theorem pairwise_rangeZ (lo hi : ℤ) : (rangeZ lo hi).Pairwise (· < ·) :=
  (List.pairwise_lt_range _).map _ (fun _ _ h => by omega)

theorem coordLt_ne {a b : ℤ × ℤ} (h : coordLt a b) : a ≠ b := by
  intro e
  subst e
  rcases h with h | ⟨-, h⟩ <;> exact absurd h (lt_irrefl _)

theorem mem_neighborSquare {xy c : ℤ × ℤ} {r : ℕ} :
    c ∈ neighborSquare xy r ↔
      xy.1 - r ≤ c.1 ∧ c.1 ≤ xy.1 + r ∧ xy.2 - r ≤ c.2 ∧ c.2 ≤ xy.2 + r := by
  obtain ⟨c1, c2⟩ := c
  simp only [neighborSquare, List.mem_product, mem_rangeZ]
  omega

theorem length_neighborSquare (xy : ℤ × ℤ) (r : ℕ) :
    (neighborSquare xy r).length = (2 * r + 1) ^ 2 := by
  rw [neighborSquare, List.length_product, length_rangeZ, length_rangeZ]
  have h1 : (xy.1 + r + 1 - (xy.1 - r)).toNat = 2 * r + 1 := by omega
  have h2 : (xy.2 + r + 1 - (xy.2 - r)).toNat = 2 * r + 1 := by omega
  rw [h1, h2]
  ring

theorem pairwise_product {l1 l2 : List ℤ} (h1 : l1.Pairwise (· < ·))
    (h2 : l2.Pairwise (· < ·)) : (l1 ×ˢ l2).Pairwise coordLt := by
  induction h1 with
  | nil => exact (List.nil_product l2) ▸ List.Pairwise.nil
  | @cons a l ha _ ih =>
    rw [List.product_cons, List.pairwise_append]
    refine ⟨h2.map _ (fun x y hxy => Or.inr ⟨rfl, hxy⟩), ih, ?_⟩
    intro p hp q hq
    obtain ⟨b, _, rfl⟩ := List.mem_map.mp hp
    obtain ⟨q1, q2⟩ := q
    exact Or.inl (ha q1 (List.mem_product.mp hq).1)

theorem pairwise_neighborSquare (xy : ℤ × ℤ) (r : ℕ) :
    (neighborSquare xy r).Pairwise coordLt :=
  pairwise_product (pairwise_rangeZ _ _) (pairwise_rangeZ _ _)

theorem nodup_neighborSquare (xy : ℤ × ℤ) (r : ℕ) : (neighborSquare xy r).Nodup :=
  (pairwise_neighborSquare xy r).imp (fun h => coordLt_ne h)

theorem mem_find_neighbors {xy c : ℤ × ℤ} {n_rows n_cols r : ℕ} :
    c ∈ find_neighbors xy n_rows n_cols r ↔
      c ≠ xy ∧ xy.1 - r ≤ c.1 ∧ c.1 ≤ xy.1 + r ∧ xy.2 - r ≤ c.2 ∧ c.2 ≤ xy.2 + r ∧
        0 ≤ c.1 ∧ c.1 < n_rows ∧ 0 ≤ c.2 ∧ c.2 < n_cols := by
  simp only [find_neighbors, List.mem_filter, mem_neighborSquare, decide_eq_true_eq]
  tauto

theorem countP_eq_one_of_nodup_mem {α : Type} [DecidableEq α] {l : List α} {a : α}
    (hn : l.Nodup) (ha : a ∈ l) : l.countP (fun c => decide (c = a)) = 1 := by
  induction l with
  | nil => cases ha
  | cons b l ih =>
    rw [List.countP_cons]
    rcases List.mem_cons.mp ha with rfl | hmem
    · have hnotmem : a ∉ l := (List.nodup_cons.mp hn).1
      have h0 : l.countP (fun c => decide (c = a)) = 0 := by
        rw [List.countP_eq_zero]
        intro c hc
        simp only [decide_eq_true_eq]
        rintro rfl
        exact hnotmem hc
      rw [h0]
      simp
    · have hbne : b ≠ a := by
        rintro rfl
        exact (List.nodup_cons.mp hn).1 hmem
      rw [ih (List.nodup_cons.mp hn).2 hmem]
      simp [hbne]

theorem countP_or_disjoint {α : Type} (p q : α → Bool) (l : List α)
    (h : ∀ a ∈ l, ¬(p a = true ∧ q a = true)) :
    l.countP (fun a => p a || q a) = l.countP p + l.countP q := by
  induction l with
  | nil => simp
  | cons a l ih =>
    simp only [List.countP_cons, Bool.or_eq_true]
    rw [ih (fun b hb => h b (List.mem_cons_of_mem a hb))]
    have hd := h a (List.mem_cons_self a l)
    cases hp : p a <;> cases hq : q a <;> simp_all <;> omega

theorem gcell_natD (g : PGrid) (i j : ℕ) :
    gcell g i j = g.cells.getD (i * g.cols + j) 0 := by
  unfold gcell
  have h : ((i : ℤ) * g.cols + j) = ((i * g.cols + j : ℕ) : ℤ) := by push_cast; ring
  rw [h, Int.toNat_natCast]

theorem mem_argwhereEmpty {g : PGrid} {idx : ℕ} :
    idx ∈ argwhereEmpty g ↔ idx < g.rows * g.cols ∧ g.cells.getD idx 0 = 0 := by
  simp [argwhereEmpty, List.mem_filter, List.mem_range]

theorem countVal_moveResident (g : PGrid) (i j dest : ℕ) (hwf : g.wf)
    (hocc : g.cells.getD (i * g.cols + j) 0 ≠ 0)
    (hdest : dest < g.cells.length) (hdz : g.cells.getD dest 0 = 0) :
    ∀ v, countVal v (moveResident g i j dest) = countVal v g := by
  intro v
  have horig_lt : i * g.cols + j < g.cells.length := by
    by_contra hge
    exact hocc (List.getD_eq_default _ _ (le_of_not_lt hge))
  have hgd : g.cells[dest] = 0 := by
    rw [← List.getD_eq_getElem g.cells 0 hdest]
    exact hdz
  have hgo : g.cells[i * g.cols + j] = g.cells.getD (i * g.cols + j) 0 :=
    (List.getD_eq_getElem g.cells 0 horig_lt).symm
  have hne : dest ≠ i * g.cols + j := by
    intro e
    refine hocc ?_
    rw [← e]
    exact hdz
  have hlen1 : (g.cells.set dest (gcell g i j)).length = g.cells.length :=
    List.length_set g.cells dest _
  have horig_lt1 : i * g.cols + j < (g.cells.set dest (gcell g i j)).length := by
    rw [hlen1]; exact horig_lt
  have h1 := List.count_set (gcell g i j) v g.cells dest hdest
  have h2 := List.count_set 0 v (g.cells.set dest (gcell g i j)) (i * g.cols + j) horig_lt1
  have hc1o : (g.cells.set dest (gcell g i j))[i * g.cols + j] = gcell g i j := by
    rw [List.getElem_set_ne hne, hgo, gcell_natD]
  rw [hgd] at h1
  rw [hc1o] at h2
  have hzmem : (0 : ℤ) ∈ g.cells := hgd ▸ List.getElem_mem hdest
  have hzpos : 0 < g.cells.count (0 : ℤ) := List.count_pos_iff.mpr hzmem
  have hvne : gcell g i j ≠ 0 := by rw [gcell_natD]; exact hocc
  simp only [beq_iff_eq] at h1 h2
  show ((g.cells.set dest (gcell g i j)).set (i * g.cols + j) 0).count v = g.cells.count v
  rw [h2, h1]
  by_cases h0 : (0 : ℤ) = v
  · have hv : v = 0 := h0.symm
    subst hv
    rw [if_neg hvne, if_pos rfl]
    omega
  · rw [if_neg h0]
    by_cases hgv : gcell g i j = v
    · rw [if_pos hgv]
      omega
    · rw [if_neg hgv]
      omega

theorem moveResident_shape (g : PGrid) (i j dest : ℕ) :
    (moveResident g i j dest).rows = g.rows ∧
    (moveResident g i j dest).cols = g.cols ∧
    (moveResident g i j dest).cells.length = g.cells.length := by
  refine ⟨rfl, rfl, ?_⟩
  simp [moveResident]

theorem relocateCell_skip_zero (ns : ℕ) (tol : ℚ) (rho : ℕ → ℕ) (g : PGrid)
    (k : ℕ) (i j : ℕ) (hz : gcell g i j = 0) :
    relocateCell ns tol rho g k i j = .ok (g, k) := by
  unfold relocateCell
  rw [if_pos hz]

theorem relocateCell_preserves {ns : ℕ} {tol : ℚ} {rho : ℕ → ℕ} {g : PGrid}
    {k : ℕ} {i j : ℕ} {g' : PGrid} {k' : ℕ} (hwf : g.wf)
    (h : relocateCell ns tol rho g k i j = .ok (g', k')) :
    g'.rows = g.rows ∧ g'.cols = g.cols ∧ g'.wf ∧
      ∀ v, countVal v g' = countVal v g := by
  unfold relocateCell at h
  by_cases hz : gcell g i j = 0
  · rw [if_pos hz] at h
    have h' : (Except.ok (g, k) : Except SimErr (PGrid × ℕ)) = .ok (g', k') := h
    cases h'
    exact ⟨rfl, rfl, hwf, fun _ => rfl⟩
  · rw [if_neg hz] at h
    cases hsim : similarity g (i, j) ns tol with
    | error e =>
      rw [hsim] at h
      exact absurd h (by simp)
    | ok b =>
      rw [hsim] at h
      cases b with
      | false =>
        have h' : (Except.ok (g, k) : Except SimErr (PGrid × ℕ)) = .ok (g', k') := h
        cases h'
        exact ⟨rfl, rfl, hwf, fun _ => rfl⟩
      | true =>
        by_cases hlen : (argwhereEmpty g).length = 0
        · have h' : (Except.error .indexError : Except SimErr (PGrid × ℕ)) = .ok (g', k') := by
            rw [← h]
            exact (if_pos hlen).symm
          exact absurd h' (by simp)
        · set dest := (argwhereEmpty g).getD (rho k % (argwhereEmpty g).length) 0 with hdd
          have h' : (Except.ok (moveResident g i j dest, k + 1) :
              Except SimErr (PGrid × ℕ)) = .ok (g', k') := by
            rw [← h]
            exact (if_neg hlen).symm
          have hg' : g' = moveResident g i j dest := by
            cases h'
            rfl
          have hidx : rho k % (argwhereEmpty g).length < (argwhereEmpty g).length :=
            Nat.mod_lt _ (Nat.pos_of_ne_zero hlen)
          have hmem : dest ∈ argwhereEmpty g := by
            rw [hdd, List.getD_eq_getElem _ _ hidx]
            exact List.getElem_mem hidx
          have hdec := mem_argwhereEmpty.mp hmem
          have hdest_lt : dest < g.cells.length := by
            rw [hwf]
            exact hdec.1
          have hocc : g.cells.getD (i * g.cols + j) 0 ≠ 0 := by
            rw [← gcell_natD]
            exact hz
          subst hg'
          obtain ⟨hr, hc, hl⟩ := moveResident_shape g i j dest
          exact ⟨hr, hc, by rw [PGrid.wf, hl, hr, hc]; exact hwf,
            countVal_moveResident g i j dest hwf hocc hdest_lt hdec.2⟩

theorem sweepCells_preserves {ns : ℕ} {tol : ℚ} {rho : ℕ → ℕ} :
    ∀ (coords : List (ℕ × ℕ)) (g : PGrid) (k : ℕ) (g' : PGrid) (k' : ℕ),
      g.wf → sweepCells ns tol rho coords g k = .ok (g', k') →
      g'.rows = g.rows ∧ g'.cols = g.cols ∧ g'.wf ∧
        ∀ v, countVal v g' = countVal v g := by
  intro coords
  induction coords with
  | nil =>
    intro g k g' k' hwf h
    have h' : (Except.ok (g, k) : Except SimErr (PGrid × ℕ)) = .ok (g', k') := h
    cases h'
    exact ⟨rfl, rfl, hwf, fun _ => rfl⟩
  | cons c cs ih =>
    intro g k g' k' hwf h
    unfold sweepCells at h
    cases hrc : relocateCell ns tol rho g k c.1 c.2 with
    | error e =>
      rw [hrc] at h
      exact absurd h (by simp)
    | ok p =>
      obtain ⟨g1, k1⟩ := p
      rw [hrc] at h
      obtain ⟨hr1, hc1, hwf1, hcnt1⟩ := relocateCell_preserves hwf hrc
      obtain ⟨hr2, hc2, hwf2, hcnt2⟩ := ih g1 k1 g' k' hwf1 h
      exact ⟨hr2.trans hr1, hc2.trans hc1, hwf2,
        fun v => (hcnt2 v).trans (hcnt1 v)⟩

theorem sweepRow_eq_sweepCells (ns : ℕ) (tol : ℚ) (rho : ℕ → ℕ) (i : ℕ) :
    ∀ (js : List ℕ) (g : PGrid) (k : ℕ),
      sweepRow ns tol rho i js g k =
        sweepCells ns tol rho (js.map (fun j => (i, j))) g k := by
  intro js
  induction js with
  | nil => intro g k; rfl
  | cons j js ih =>
    intro g k
    simp only [List.map_cons, sweepRow, sweepCells]
    cases relocateCell ns tol rho g k i j with
    | error e => rfl
    | ok p =>
      obtain ⟨g1, k1⟩ := p
      exact ih g1 k1

theorem sweepCells_append (ns : ℕ) (tol : ℚ) (rho : ℕ → ℕ) :
    ∀ (l1 l2 : List (ℕ × ℕ)) (g : PGrid) (k : ℕ),
      sweepCells ns tol rho (l1 ++ l2) g k =
        match sweepCells ns tol rho l1 g k with
        | .error e => .error e
        | .ok (g', k') => sweepCells ns tol rho l2 g' k' := by
  intro l1
  induction l1 with
  | nil => intro l2 g k; rfl
  | cons c cs ih =>
    intro l2 g k
    simp only [List.cons_append, sweepCells]
    cases relocateCell ns tol rho g k c.1 c.2 with
    | error e => rfl
    | ok p =>
      obtain ⟨g1, k1⟩ := p
      exact ih l2 g1 k1

theorem stepFrame_eq_sweepCells (ns : ℕ) (tol : ℚ) (rho : ℕ → ℕ) (h w : ℕ)
    (g : PGrid) (k : ℕ) :
    stepFrame ns tol rho h w g k = sweepCells ns tol rho (rowMajorCoords h w) g k := by
  unfold stepFrame rowMajorCoords
  generalize List.range h = is
  induction is generalizing g k with
  | nil => rfl
  | cons i is ih =>
    simp only [sweepGrid, List.flatMap_cons]
    rw [sweepCells_append, ← sweepRow_eq_sweepCells]
    cases sweepRow ns tol rho i (List.range w) g k with
    | error e => rfl
    | ok p =>
      obtain ⟨g1, k1⟩ := p
      exact ih g1 k1

theorem stepFrame_preserves {ns : ℕ} {tol : ℚ} {rho : ℕ → ℕ} {h w : ℕ}
    {g : PGrid} {k : ℕ} {g' : PGrid} {k' : ℕ} (hwf : g.wf)
    (hh : stepFrame ns tol rho h w g k = .ok (g', k')) :
    g'.rows = g.rows ∧ g'.cols = g.cols ∧ g'.wf ∧
      ∀ v, countVal v g' = countVal v g := by
  rw [stepFrame_eq_sweepCells] at hh
  exact sweepCells_preserves _ g k g' k' hwf hh

theorem runLoopTrace_counts {ns : ℕ} {tol : ℚ} {se : ℕ} {rho : ℕ → ℕ} {h w : ℕ} :
    ∀ (fuel : ℕ) (g : PGrid) (k : ℕ) (gs : List PGrid),
      g.wf → runLoopTrace ns tol se rho h w fuel g k = .ok gs →
      ∀ g' ∈ gs, g'.wf ∧ ∀ v, countVal v g' = countVal v g := by
  intro fuel
  induction fuel with
  | zero =>
    intro g k gs hwf hh g' hg'
    have h' : (Except.ok [] : Except SimErr (List PGrid)) = .ok gs := hh
    cases h'
    cases hg'
  | succ n ih =>
    intro g k gs hwf hh g' hg'
    unfold runLoopTrace at hh
    by_cases hse : se = 0
    · rw [if_pos hse] at hh
      exact absurd hh (by simp)
    · rw [if_neg hse] at hh
      cases hsf : stepFrame ns tol rho h w g k with
      | error e =>
        rw [hsf] at hh
        exact absurd hh (by simp)
      | ok p =>
        obtain ⟨g1, k1⟩ := p
        rw [hsf] at hh
        have hh2 : (match runLoopTrace ns tol se rho h w n g1 k1 with
            | Except.error e => (Except.error e : Except SimErr (List PGrid))
            | Except.ok gs2 => Except.ok (g1 :: gs2)) = Except.ok gs := hh
        cases htr : runLoopTrace ns tol se rho h w n g1 k1 with
        | error e =>
          rw [htr] at hh2
          exact absurd hh2 (by simp)
        | ok gs2 =>
          rw [htr] at hh2
          have h' : (Except.ok (g1 :: gs2) : Except SimErr (List PGrid)) = .ok gs := hh2
          cases h'
          obtain ⟨-, -, hwf1, hcnt1⟩ := stepFrame_preserves hwf hsf
          rcases List.mem_cons.mp hg' with rfl | hmem
          · exact ⟨hwf1, hcnt1⟩
          · obtain ⟨hwf2, hcnt2⟩ := ih g1 k1 gs2 hwf1 htr g' hmem
            exact ⟨hwf2, fun v => (hcnt2 v).trans (hcnt1 v)⟩

theorem initGrid_wf (cfg : Config) (u : ℕ → ℚ) : (initGrid cfg u).wf := by
  simp [initGrid, PGrid.wf]

theorem runLoop_frame_count {ns : ℕ} {tol : ℚ} {se : ℕ} {rho : ℕ → ℕ} {h w : ℕ} :
    ∀ (fuel frame : ℕ) (g : PGrid) (k : ℕ) (g' : PGrid) (f : ℕ),
      runLoop ns tol se rho h w fuel frame g k = .ok (g', f) → f = frame + fuel := by
  intro fuel
  induction fuel with
  | zero =>
    intro frame g k g' f hh
    have h' : (Except.ok (g, frame) : Except SimErr (PGrid × ℕ)) = .ok (g', f) := hh
    cases h'
    omega
  | succ n ih =>
    intro frame g k g' f hh
    unfold runLoop at hh
    by_cases hse : se = 0
    · rw [if_pos hse] at hh
      exact absurd hh (by simp)
    · rw [if_neg hse] at hh
      cases hsf : stepFrame ns tol rho h w g k with
      | error e =>
        rw [hsf] at hh
        exact absurd hh (by simp)
      | ok p =>
        obtain ⟨g1, k1⟩ := p
        rw [hsf] at hh
        have := ih (frame + 1) g1 k1 g' f hh
        omega

theorem gcell_all_zero {g : PGrid} (hall : ∀ c ∈ g.cells, c = 0) (a b : ℤ) :
    gcell g a b = 0 := by
  unfold gcell
  by_cases hlt : (a * g.cols + b).toNat < g.cells.length
  · rw [List.getD_eq_getElem g.cells 0 hlt]
    exact hall _ (List.getElem_mem hlt)
  · exact List.getD_eq_default _ _ (le_of_not_lt hlt)

theorem stepFrame_all_zero (ns : ℕ) (tol : ℚ) (rho : ℕ → ℕ) (h w : ℕ)
    (g : PGrid) (k : ℕ) (hall : ∀ c ∈ g.cells, c = 0) :
    stepFrame ns tol rho h w g k = .ok (g, k) := by
  rw [stepFrame_eq_sweepCells]
  generalize rowMajorCoords h w = coords
  induction coords with
  | nil => rfl
  | cons c cs ih =>
    simp only [sweepCells]
    rw [relocateCell_skip_zero ns tol rho g k c.1 c.2 (gcell_all_zero hall _ _)]
    exact ih

theorem runLoop_all_zero (ns : ℕ) (tol : ℚ) (se : ℕ) (rho : ℕ → ℕ) (h w : ℕ)
    (hse : se ≠ 0) (g : PGrid) (k : ℕ) (hall : ∀ c ∈ g.cells, c = 0) :
    ∀ (fuel frame : ℕ), runLoop ns tol se rho h w fuel frame g k = .ok (g, frame + fuel) := by
  intro fuel
  induction fuel with
  | zero => intro frame; rfl
  | succ n ih =>
    intro frame
    unfold runLoop
    rw [if_neg hse, stepFrame_all_zero ns tol rho h w g k hall]
    have := ih (frame + 1)
    rw [show frame + 1 + n = frame + (n + 1) from by omega] at this
    exact this

theorem sweepCells_no_empty_aborts (ns : ℕ) (tol : ℚ) (rho : ℕ → ℕ) :
    ∀ (coords : List (ℕ × ℕ)) (g : PGrid) (k : ℕ),
      argwhereEmpty g = [] →
      (∃ c ∈ coords, gcell g c.1 c.2 ≠ 0 ∧ similarity g (c.1, c.2) ns tol = .ok true) →
      ∃ e, sweepCells ns tol rho coords g k = .error e := by
  intro coords
  induction coords with
  | nil =>
    rintro g k hemp ⟨c, hc, -⟩
    cases hc
  | cons c cs ih =>
    rintro g k hemp ⟨c0, hc0, hocc0, hsim0⟩
    by_cases hz : gcell g c.1 c.2 = 0
    · have hc0cs : c0 ∈ cs := by
        rcases List.mem_cons.mp hc0 with rfl | hmem
        · exact absurd hz hocc0
        · exact hmem
      obtain ⟨e, he⟩ := ih g k hemp ⟨c0, hc0cs, hocc0, hsim0⟩
      refine ⟨e, ?_⟩
      simp only [sweepCells]
      rw [relocateCell_skip_zero ns tol rho g k c.1 c.2 hz]
      exact he
    · cases hsim : similarity g (c.1, c.2) ns tol with
      | error e =>
        refine ⟨e, ?_⟩
        have hrc : relocateCell ns tol rho g k c.1 c.2 = .error e := by
          unfold relocateCell
          rw [if_neg hz, hsim]
        simp only [sweepCells]
        rw [hrc]
      | ok b =>
        cases b with
        | false =>
          have hc0cs : c0 ∈ cs := by
            rcases List.mem_cons.mp hc0 with rfl | hmem
            · have := hsim0.symm.trans hsim
              simp at this
            · exact hmem
          have hrc : relocateCell ns tol rho g k c.1 c.2 = .ok (g, k) := by
            unfold relocateCell
            rw [if_neg hz, hsim]
          obtain ⟨e, he⟩ := ih g k hemp ⟨c0, hc0cs, hocc0, hsim0⟩
          refine ⟨e, ?_⟩
          simp only [sweepCells]
          rw [hrc]
          exact he
        | true =>
          refine ⟨.indexError, ?_⟩
          have hrc : relocateCell ns tol rho g k c.1 c.2 = .error .indexError := by
            unfold relocateCell
            rw [if_neg hz, hsim]
            simp [hemp]
          simp only [sweepCells]
          rw [hrc]

/-! ## Claims -/

/-- Claim C1 counterexample: the claim reads `prior_dist` in the order
`[Empty, TypeA, TypeB]`, but the source computes
`np.random.choice(3, p=prior_dist) - 1`, so index 0 is the value `-1`
(an occupant) and index 1 is Empty.  With `prior_dist = [1, 0, 0]` and a
valid uniform stream, every cell of a 2 by 2 grid is occupied: the grid
has 4 occupants, not zero. -/
theorem initGrid_prior_head_not_empty :
    ((0 : ℚ) ≤ 1/2 ∧ (1 : ℚ)/2 < 1) ∧
    (initGrid ⟨2, 2, 1, 1/2, [1, 0, 0], 1, 1⟩ (fun _ => 1/2)).cells = [-1, -1, -1, -1] ∧
    occupants (initGrid ⟨2, 2, 1, 1/2, [1, 0, 0], 1, 1⟩ (fun _ => 1/2)) ≠ 0 := by
  decide

/-- Claim C1 (amended): initialization maps `prior_dist` index `i` to cell
value `i - 1`, so `prior_dist[1]` is the probability of Empty.  A
configuration with `prior_dist = [0, 1, 0]` (all cells Empty) produces a
grid with zero occupants, and a run on it completes all `max_frame` frames
with no relocations (the grid is returned unchanged) and no error. -/
theorem run_all_empty_completes (cfg : Config) (u : ℕ → ℚ) (rho : ℕ → ℕ)
    (hprior : cfg.prior_dist = [0, 1, 0])
    (hu : ∀ n, 0 ≤ u n ∧ u n < 1) (hse : cfg.show_every ≠ 0) :
    occupants (initGrid cfg u) = 0 ∧
    run cfg u rho = .ok (initGrid cfg u, cfg.max_frame) := by
  have hall : ∀ c ∈ (initGrid cfg u).cells, c = 0 := by
    intro c hc
    simp only [initGrid, List.mem_map] at hc
    obtain ⟨idx, -, rfl⟩ := hc
    obtain ⟨hu0, hu1⟩ := hu idx
    simp only [choiceIdx, hprior]
    rw [if_neg (by simpa using not_lt.mpr hu0), if_pos (by simpa using hu1)]
    ring
  constructor
  · have hmt : ∀ v : ℤ, v ≠ 0 → countVal v (initGrid cfg u) = 0 := by
      intro v hv
      rw [countVal, List.count_eq_zero]
      intro hmem
      exact hv (hall v hmem)
    rw [occupants, hmt (-1) (by decide), hmt 1 (by decide)]
  · unfold run
    rw [if_neg (by rw [hprior]; decide)]
    have hl := runLoop_all_zero cfg.neighbor_size cfg.neighbor_tol cfg.show_every
      rho cfg.height cfg.width hse (initGrid cfg u) 0 hall cfg.max_frame 0
    rw [Nat.zero_add] at hl
    exact hl

/-- Claim C1 (amended) witness: a concrete 2 by 2 configuration with
`prior_dist = [0, 1, 0]` and `max_frame = 3`. -/
theorem run_all_empty_completes_witness :
    occupants (initGrid ⟨2, 2, 1, 1/2, [0, 1, 0], 3, 1⟩ (fun _ => 1/2)) = 0 ∧
    run ⟨2, 2, 1, 1/2, [0, 1, 0], 3, 1⟩ (fun _ => 1/2) (fun _ => 0) =
      .ok (initGrid ⟨2, 2, 1, 1/2, [0, 1, 0], 3, 1⟩ (fun _ => 1/2), 3) :=
  run_all_empty_completes ⟨2, 2, 1, 1/2, [0, 1, 0], 3, 1⟩ (fun _ => 1/2) (fun _ => 0)
    rfl (fun _ => by constructor <;> norm_num) (by decide)

/-- Claim C2: for an occupied in-bounds cell with a non-empty neighborhood
and radius at least 1, `similarity` answers `true` exactly when the count
of same-type neighbors divided by the full neighborhood length (empty
neighbor cells included in the denominator) is strictly below the
tolerance, and answers `false` when that fraction equals the tolerance. -/
theorem similarity_iff_fraction (g : PGrid) (xy : ℤ × ℤ) (r : ℕ) (tol : ℚ)
    (hocc : gcell g xy.1 xy.2 ≠ 0)
    (hx : 0 ≤ xy.1 ∧ xy.1 < g.rows) (hy : 0 ≤ xy.2 ∧ xy.2 < g.cols)
    (hr : 1 ≤ r) (hne : neighborhoodOf g xy r ≠ []) :
    (similarity g xy r tol = .ok true ↔
      ((neighborhoodOf g xy r).count (gcell g xy.1 xy.2) : ℚ) /
        ((neighborhoodOf g xy r).length : ℚ) < tol) ∧
    (((neighborhoodOf g xy r).count (gcell g xy.1 xy.2) : ℚ) /
        ((neighborhoodOf g xy r).length : ℚ) = tol →
      similarity g xy r tol = .ok false) := by
  have hlen : ¬((neighborhoodOf g xy r).length = 0) := by
    intro h
    exact hne (List.length_eq_zero.mp h)
  unfold similarity
  simp only [hlen, if_false]
  by_cases hlt : ((neighborhoodOf g xy r).count (gcell g xy.1 xy.2) : ℚ) /
      ((neighborhoodOf g xy r).length : ℚ) < tol
  · rw [if_pos hlt]
    exact ⟨⟨fun _ => hlt, fun _ => rfl⟩, fun he => absurd (he ▸ hlt) (lt_irrefl tol)⟩
  · rw [if_neg hlt]
    exact ⟨⟨fun h => absurd h (by simp), fun h => absurd h hlt⟩, fun _ => rfl⟩

/-- Claim C2 witness at a concrete instance: in the 2 by 2 grid with cells
`[-1, -1, 1, 0]`, the resident at `(0, 0)` has neighborhood `[-1, 1, 0]`,
same-type fraction `1/3 < 1/2`, so it must relocate. -/
theorem similarity_iff_fraction_witness :
    (similarity ⟨2, 2, [-1, -1, 1, 0]⟩ (0, 0) 1 (1/2) = .ok true ↔
      ((neighborhoodOf ⟨2, 2, [-1, -1, 1, 0]⟩ (0, 0) 1).count
          (gcell ⟨2, 2, [-1, -1, 1, 0]⟩ 0 0) : ℚ) /
        ((neighborhoodOf ⟨2, 2, [-1, -1, 1, 0]⟩ (0, 0) 1).length : ℚ) < 1/2) ∧
    (((neighborhoodOf ⟨2, 2, [-1, -1, 1, 0]⟩ (0, 0) 1).count
          (gcell ⟨2, 2, [-1, -1, 1, 0]⟩ 0 0) : ℚ) /
        ((neighborhoodOf ⟨2, 2, [-1, -1, 1, 0]⟩ (0, 0) 1).length : ℚ) = 1/2 →
      similarity ⟨2, 2, [-1, -1, 1, 0]⟩ (0, 0) 1 (1/2) = .ok false) :=
  similarity_iff_fraction ⟨2, 2, [-1, -1, 1, 0]⟩ (0, 0) 1 (1/2) (by decide)
    (by constructor <;> decide) (by constructor <;> decide) (by decide) (by decide)

/-- Claim C3: after every completed frame of a run, the number of TypeA
cells, of TypeB cells and of Empty cells each equal their counts
immediately after initialization. -/
theorem run_conserves_counts (cfg : Config) (u : ℕ → ℚ) (rho : ℕ → ℕ)
    (gs : List PGrid) (g' : PGrid)
    (hrun : runTrace cfg u rho = .ok gs) (hmem : g' ∈ gs) :
    countVal (-1) g' = countVal (-1) (initGrid cfg u) ∧
    countVal 1 g' = countVal 1 (initGrid cfg u) ∧
    countVal 0 g' = countVal 0 (initGrid cfg u) := by
  unfold runTrace at hrun
  by_cases hps : cfg.prior_dist.sum ≠ 1
  · rw [if_pos hps] at hrun
    exact absurd hrun (by simp)
  · rw [if_neg hps] at hrun
    have hres := runLoopTrace_counts cfg.max_frame (initGrid cfg u) 0 gs
      (initGrid_wf cfg u) hrun g' hmem
    exact ⟨hres.2 _, hres.2 _, hres.2 _⟩

/-- Claim C3 witness: a concrete 2 by 2 run of two frames in which a
relocation actually happens; both frames keep the counts 2, 1, 1 of the
initial grid `[-1, 0, 1, -1]`. -/
theorem run_conserves_counts_witness :
    countVal (-1) ⟨2, 2, [-1, 1, -1, 0]⟩ =
      countVal (-1) (initGrid ⟨2, 2, 1, 3/4, [1/3, 1/3, 1/3], 2, 1⟩
        (fun n => if n = 0 then 0 else if n = 1 then 1/2 else if n = 2 then 9/10 else 0)) ∧
    countVal 1 ⟨2, 2, [-1, 1, -1, 0]⟩ =
      countVal 1 (initGrid ⟨2, 2, 1, 3/4, [1/3, 1/3, 1/3], 2, 1⟩
        (fun n => if n = 0 then 0 else if n = 1 then 1/2 else if n = 2 then 9/10 else 0)) ∧
    countVal 0 ⟨2, 2, [-1, 1, -1, 0]⟩ =
      countVal 0 (initGrid ⟨2, 2, 1, 3/4, [1/3, 1/3, 1/3], 2, 1⟩
        (fun n => if n = 0 then 0 else if n = 1 then 1/2 else if n = 2 then 9/10 else 0)) :=
  run_conserves_counts ⟨2, 2, 1, 3/4, [1/3, 1/3, 1/3], 2, 1⟩
    (fun n => if n = 0 then 0 else if n = 1 then 1/2 else if n = 2 then 9/10 else 0)
    (fun _ => 0) [⟨2, 2, [-1, 1, -1, 0]⟩, ⟨2, 2, [1, -1, -1, 0]⟩]
    ⟨2, 2, [-1, 1, -1, 0]⟩ (by decide) (by decide)

/-- Claim C4 counterexample: on the degenerate 1 by 1 grid the
neighborhood of the only cell is empty and `similarity` fails with the
division-by-zero error of the source, not with a configuration-error
signal as the claim states. -/
theorem similarity_no_config_error :
    similarity ⟨1, 1, [1]⟩ (0, 0) 1 (1/2) = .error .zeroDivisionError ∧
    similarity ⟨1, 1, [1]⟩ (0, 0) 1 (1/2) ≠ .error .configurationError := by
  decide

/-- Claim C4 (amended): whenever the neighborhood of the queried cell is
empty, `similarity` aborts with the ZeroDivisionError raised by the
division in the source; it never silently returns a default Boolean, but
the failure is the uncaught division-by-zero exception, not an explicit
configuration-error signal. -/
theorem similarity_empty_neighborhood (g : PGrid) (xy : ℤ × ℤ) (r : ℕ) (tol : ℚ)
    (h : neighborhoodOf g xy r = []) :
    similarity g xy r tol = .error .zeroDivisionError := by
  unfold similarity
  rw [h]
  rfl

/-- Claim C4 (amended) witness at the concrete 1 by 1 grid. -/
theorem similarity_empty_neighborhood_witness :
    similarity ⟨1, 1, [1]⟩ (0, 0) 1 (1/2) = .error .zeroDivisionError :=
  similarity_empty_neighborhood ⟨1, 1, [1]⟩ (0, 0) 1 (1/2) (by decide)

/-- Claim C5 counterexample: on the fully occupied 1 by 2 grid `[-1, 1]`
with tolerance `1/2`, the cell `(0, 0)` must relocate but no Empty cell
exists; the frame aborts with the IndexError of the out-of-range
`random.choice` selection, not with a configuration-error signal as the
claim states. -/
theorem step_no_empty_index_error :
    stepFrame 1 (1/2) (fun _ => 0) 1 2 ⟨1, 2, [-1, 1]⟩ 0 = .error .indexError ∧
    stepFrame 1 (1/2) (fun _ => 0) 1 2 ⟨1, 2, [-1, 1]⟩ 0 ≠ .error .configurationError := by
  decide

/-- Claim C5 (amended): if during a frame sweep some occupied cell must
relocate while the grid contains no Empty cell anywhere, the engine aborts
the frame with an error (when the selection itself is reached it is the
IndexError of `random.choice` on the empty candidate list); it does not
silently continue, but it raises no configuration-error signal. -/
theorem step_no_empty_aborts (ns : ℕ) (tol : ℚ) (rho : ℕ → ℕ) (h w : ℕ)
    (g : PGrid) (k : ℕ) (hemp : argwhereEmpty g = [])
    (hrel : ∃ i j, i < h ∧ j < w ∧ gcell g i j ≠ 0 ∧
      similarity g (i, j) ns tol = .ok true) :
    ∃ e, stepFrame ns tol rho h w g k = .error e := by
  obtain ⟨i, j, hi, hj, hocc, hsim⟩ := hrel
  rw [stepFrame_eq_sweepCells]
  refine sweepCells_no_empty_aborts ns tol rho _ g k hemp ⟨(i, j), ?_, hocc, hsim⟩
  simp only [rowMajorCoords, List.mem_flatMap, List.mem_map, List.mem_range]
  exact ⟨i, hi, j, hj, rfl⟩

/-- Claim C5 (amended) witness at the concrete fully occupied 1 by 2
grid. -/
theorem step_no_empty_aborts_witness :
    ∃ e, stepFrame 1 (1/2) (fun _ => 0) 1 2 ⟨1, 2, [-1, 1]⟩ 0 = .error e :=
  step_no_empty_aborts 1 (1/2) (fun _ => 0) 1 2 ⟨1, 2, [-1, 1]⟩ 0 (by decide)
    ⟨0, 0, by decide, by decide, by decide, by decide⟩

/-- Claim C6: for positive grid dimensions, an in-bounds center and radius
at least 1, `find_neighbors` yields exactly the in-bounds coordinates of
the `(2r+1) x (2r+1)` square around the center, the center excluded, and
its length is `(2r+1)^2 - 1` minus the number of square positions clipped
for being out of bounds. -/
theorem find_neighbors_characterization (xy : ℤ × ℤ) (n_rows n_cols r : ℕ)
    (hrows : 1 ≤ n_rows) (hcols : 1 ≤ n_cols) (hr : 1 ≤ r)
    (hx : 0 ≤ xy.1 ∧ xy.1 < n_rows) (hy : 0 ≤ xy.2 ∧ xy.2 < n_cols) :
    (∀ c, c ∈ find_neighbors xy n_rows n_cols r ↔
      (c ≠ xy ∧ |c.1 - xy.1| ≤ (r : ℤ) ∧ |c.2 - xy.2| ≤ (r : ℤ) ∧
        0 ≤ c.1 ∧ c.1 < n_rows ∧ 0 ≤ c.2 ∧ c.2 < n_cols)) ∧
    (find_neighbors xy n_rows n_cols r).length =
      (2 * r + 1) ^ 2 - 1 - clippedCount xy n_rows n_cols r := by
  constructor
  · intro c
    rw [mem_find_neighbors]
    constructor
    · rintro ⟨h1, h2⟩
      refine ⟨h1, ?_, ?_, ?_, ?_, ?_, ?_⟩ <;>
        [rw [abs_le]; rw [abs_le]; skip; skip; skip; skip] <;> omega
    · rintro ⟨h1, h2, h3, h4⟩
      rw [abs_le] at h2 h3
      exact ⟨h1, by omega, by omega, by omega, by omega, by omega⟩
  · have hnodup := nodup_neighborSquare xy r
    have hmemxy : xy ∈ neighborSquare xy r := by rw [mem_neighborSquare]; omega
    have hSlen := length_neighborSquare xy r
    have hsplit := List.length_eq_countP_add_countP
      (fun c => decide (c ≠ xy ∧ 0 ≤ c.1 ∧ c.1 < (n_rows : ℤ) ∧
        0 ≤ c.2 ∧ c.2 < (n_cols : ℤ))) (neighborSquare xy r)
    have hcongr : (neighborSquare xy r).countP
        (fun c => decide ¬((decide (c ≠ xy ∧ 0 ≤ c.1 ∧ c.1 < (n_rows : ℤ) ∧
          0 ≤ c.2 ∧ c.2 < (n_cols : ℤ))) = true)) =
        (neighborSquare xy r).countP
          (fun c => decide (c = xy) ||
            decide ¬(0 ≤ c.1 ∧ c.1 < (n_rows : ℤ) ∧ 0 ≤ c.2 ∧ c.2 < (n_cols : ℤ))) := by
      refine List.countP_congr (fun c _ => ?_)
      simp only [decide_eq_true_eq, Bool.or_eq_true]
      tauto
    have hdisj : (neighborSquare xy r).countP
        (fun c => decide (c = xy) ||
          decide ¬(0 ≤ c.1 ∧ c.1 < (n_rows : ℤ) ∧ 0 ≤ c.2 ∧ c.2 < (n_cols : ℤ))) =
        (neighborSquare xy r).countP (fun c => decide (c = xy)) +
          clippedCount xy n_rows n_cols r := by
      refine countP_or_disjoint _ _ _ (fun c _ => ?_)
      simp only [decide_eq_true_eq]
      rintro ⟨rfl, hbad⟩
      exact hbad ⟨hx.1, hx.2, hy.1, hy.2⟩
    have hone : (neighborSquare xy r).countP (fun c => decide (c = xy)) = 1 :=
      countP_eq_one_of_nodup_mem hnodup hmemxy
    have hflt : (find_neighbors xy n_rows n_cols r).length =
        (neighborSquare xy r).countP
          (fun c => decide (c ≠ xy ∧ 0 ≤ c.1 ∧ c.1 < (n_rows : ℤ) ∧
            0 ≤ c.2 ∧ c.2 < (n_cols : ℤ))) :=
      (List.countP_eq_length_filter _ _).symm
    omega

/-- Claim C6 witness at a concrete instance: a 2 by 2 grid, center
`(0,0)`, radius 1. -/
theorem find_neighbors_characterization_witness :
    (((1 : ℤ), (1 : ℤ)) ∈ find_neighbors (0, 0) 2 2 1 ↔
      (((1 : ℤ), (1 : ℤ)) ≠ (0, 0) ∧ |(1 : ℤ) - 0| ≤ (1 : ℤ) ∧ |(1 : ℤ) - 0| ≤ (1 : ℤ) ∧
        0 ≤ (1 : ℤ) ∧ (1 : ℤ) < 2 ∧ 0 ≤ (1 : ℤ) ∧ (1 : ℤ) < 2)) ∧
    (find_neighbors ((0 : ℤ), (0 : ℤ)) 2 2 1).length =
      (2 * 1 + 1) ^ 2 - 1 - clippedCount (0, 0) 2 2 1 :=
  ⟨(find_neighbors_characterization (0, 0) 2 2 1 (by decide) (by decide) (by decide)
      (by constructor <;> decide) (by constructor <;> decide)).1 (1, 1),
    (find_neighbors_characterization (0, 0) 2 2 1 (by decide) (by decide) (by decide)
      (by constructor <;> decide) (by constructor <;> decide)).2⟩

/-- Claim C7: each frame sweeps the cells in fixed row-major order (the
nested loops equal one pass over the row-major coordinate list), skips
Empty cells, chooses a relocation destination from the empty cells of the
current in-place-mutated grid, and differs observably from the pre-sweep
snapshot semantics (witnessed on the 1 by 3 grid `[-1, 1, 0]`), so
relocations made earlier in a sweep are visible to later decisions. -/
theorem frame_sweep_semantics :
    (∀ (ns : ℕ) (tol : ℚ) (rho : ℕ → ℕ) (h w : ℕ) (g : PGrid) (k : ℕ),
      stepFrame ns tol rho h w g k = sweepCells ns tol rho (rowMajorCoords h w) g k) ∧
    (∀ (ns : ℕ) (tol : ℚ) (rho : ℕ → ℕ) (g : PGrid) (k i j : ℕ),
      gcell g i j = 0 → relocateCell ns tol rho g k i j = .ok (g, k)) ∧
    (∀ (ns : ℕ) (tol : ℚ) (rho : ℕ → ℕ) (g : PGrid) (k i j : ℕ),
      gcell g i j ≠ 0 → similarity g (i, j) ns tol = .ok true →
      argwhereEmpty g ≠ [] →
      (argwhereEmpty g).getD (rho k % (argwhereEmpty g).length) 0 ∈ argwhereEmpty g ∧
      relocateCell ns tol rho g k i j =
        .ok (moveResident g i j
          ((argwhereEmpty g).getD (rho k % (argwhereEmpty g).length) 0), k + 1)) ∧
    sweepCells 1 (1/2) (fun _ => 0) (rowMajorCoords 1 3) ⟨1, 3, [-1, 1, 0]⟩ 0 ≠
      sweepCellsSnapshot 1 (1/2) (fun _ => 0) ⟨1, 3, [-1, 1, 0]⟩ (rowMajorCoords 1 3)
        ⟨1, 3, [-1, 1, 0]⟩ 0 := by
  refine ⟨stepFrame_eq_sweepCells, relocateCell_skip_zero, ?_, by decide⟩
  intro ns tol rho g k i j hocc hsim hne
  have hlen : ¬((argwhereEmpty g).length = 0) := by
    intro h0
    exact hne (List.length_eq_zero.mp h0)
  have hidx : rho k % (argwhereEmpty g).length < (argwhereEmpty g).length :=
    Nat.mod_lt _ (Nat.pos_of_ne_zero hlen)
  constructor
  · rw [List.getD_eq_getElem _ _ hidx]
    exact List.getElem_mem hidx
  · unfold relocateCell
    rw [if_neg hocc, hsim]
    exact if_neg hlen

/-- Claim C7 witness: the skip-empty clause applied to the Empty cell
`(0, 2)` of the 1 by 3 grid `[-1, 1, 0]`. -/
theorem frame_sweep_semantics_witness :
    relocateCell 1 (1/2) (fun _ => 0) ⟨1, 3, [-1, 1, 0]⟩ 0 0 2 =
      .ok (⟨1, 3, [-1, 1, 0]⟩, 0) :=
  frame_sweep_semantics.2.1 1 (1/2) (fun _ => 0) ⟨1, 3, [-1, 1, 0]⟩ 0 0 2 (by decide)

/-- Claim C8: the engine is a deterministic function of the configuration
and the two random streams (the model of the seeded numpy and stdlib
generators): two runs fed the same seed-derived streams produce identical
grid traces and identical final states.  The initialization stream `u` and
the destination stream `rho` are the only randomness in the model. -/
theorem run_deterministic (cfg : Config) (u u2 : ℕ → ℚ) (rho rho2 : ℕ → ℕ)
    (hu : ∀ n, u n = u2 n) (hrho : ∀ n, rho n = rho2 n) :
    runTrace cfg u rho = runTrace cfg u2 rho2 ∧ run cfg u rho = run cfg u2 rho2 := by
  have h1 : u = u2 := funext hu
  have h2 : rho = rho2 := funext hrho
  subst h1
  subst h2
  exact ⟨rfl, rfl⟩

/-- Claim C8 witness at a concrete configuration and concrete streams. -/
theorem run_deterministic_witness :
    (runTrace ⟨2, 2, 1, 1/2, [0, 1, 0], 2, 1⟩ (fun _ => 1/2) (fun _ => 0) =
      runTrace ⟨2, 2, 1, 1/2, [0, 1, 0], 2, 1⟩ (fun _ => 1/2) (fun _ => 0)) ∧
    (run ⟨2, 2, 1, 1/2, [0, 1, 0], 2, 1⟩ (fun _ => 1/2) (fun _ => 0) =
      run ⟨2, 2, 1, 1/2, [0, 1, 0], 2, 1⟩ (fun _ => 1/2) (fun _ => 0)) :=
  run_deterministic ⟨2, 2, 1, 1/2, [0, 1, 0], 2, 1⟩ (fun _ => 1/2) (fun _ => 1/2)
    (fun _ => 0) (fun _ => 0) (fun _ => rfl) (fun _ => rfl)

/-- Claim C9: a run that returns normally has performed exactly
`max_frame` frame steps: the returned frame counter equals
`cfg.max_frame`, and the fuel-structured loop performs no further frame
step after it. -/
theorem run_frame_count (cfg : Config) (u : ℕ → ℚ) (rho : ℕ → ℕ)
    (g : PGrid) (n : ℕ) (h : run cfg u rho = .ok (g, n)) : n = cfg.max_frame := by
  unfold run at h
  by_cases hps : cfg.prior_dist.sum ≠ 1
  · rw [if_pos hps] at h
    exact absurd h (by simp)
  · rw [if_neg hps] at h
    have := runLoop_frame_count cfg.max_frame 0 (initGrid cfg u) 0 g n h
    omega

/-- Claim C9 witness: a concrete 3-frame run returns frame counter 3. -/
theorem run_frame_count_witness :
    run ⟨2, 2, 1, 1/2, [0, 1, 0], 3, 1⟩ (fun _ => 1/2) (fun _ => 0) =
      .ok (⟨2, 2, [0, 0, 0, 0]⟩, 3) ∧
    (3 : ℕ) = Config.max_frame ⟨2, 2, 1, 1/2, [0, 1, 0], 3, 1⟩ :=
  ⟨by decide,
    run_frame_count ⟨2, 2, 1, 1/2, [0, 1, 0], 3, 1⟩ (fun _ => 1/2) (fun _ => 0)
      ⟨2, 2, [0, 0, 0, 0]⟩ 3 (by decide)⟩

/-- Claim C10: for an in-bounds center the coordinate list produced by
`find_neighbors` is strictly increasing in lexicographic row-major order,
hence duplicate-free; radius 0 yields the empty list. -/
theorem find_neighbors_sorted (xy : ℤ × ℤ) (n_rows n_cols r : ℕ)
    (hrows : 1 ≤ n_rows) (hcols : 1 ≤ n_cols)
    (hx : 0 ≤ xy.1 ∧ xy.1 < n_rows) (hy : 0 ≤ xy.2 ∧ xy.2 < n_cols) :
    (find_neighbors xy n_rows n_cols r).Pairwise coordLt ∧
    (find_neighbors xy n_rows n_cols r).Nodup ∧
    find_neighbors xy n_rows n_cols 0 = [] := by
  have hpw : (find_neighbors xy n_rows n_cols r).Pairwise coordLt :=
    (pairwise_neighborSquare xy r).filter _
  refine ⟨hpw, hpw.imp (fun h => coordLt_ne h), ?_⟩
  rw [List.eq_nil_iff_forall_not_mem]
  intro c hc
  rw [mem_find_neighbors] at hc
  obtain ⟨c1, c2⟩ := c
  obtain ⟨x1, x2⟩ := xy
  have heq : c1 = x1 ∧ c2 = x2 := by constructor <;> omega
  exact hc.1 (by simp [heq.1, heq.2])

/-- Claim C10 witness at a concrete instance: a 2 by 2 grid, center
`(0,0)`, radius 1. -/
theorem find_neighbors_sorted_witness :
    (find_neighbors ((0 : ℤ), (0 : ℤ)) 2 2 1).Pairwise coordLt ∧
    (find_neighbors ((0 : ℤ), (0 : ℤ)) 2 2 1).Nodup ∧
    find_neighbors ((0 : ℤ), (0 : ℤ)) 2 2 0 = [] :=
  find_neighbors_sorted (0, 0) 2 2 1 (by decide) (by decide)
    (by constructor <;> decide) (by constructor <;> decide)

end Schelling
